import Mathlib

/-!
Shallow embedding of the watch subsystem of the centraldogma-go client
(`watch_service.go`, `utils.go`, `content_service.go`, `dogma.go`).

Conventions of the embedding:
* Go `int`/`int32`/`int64` values are modelled as `Int`; wrap-around is made
  explicit (`wrap64`) exactly where the source relies on it.
* Go `error` values are modelled by the inductive `GoErr`; `nil` is `none`.
* Go byte slices (`[]byte`, `EntryContent`) are modelled as `String`s whose
  code points are below 256, one code point per byte.
* Go `float64` arithmetic in `nextDelay`/`saturatedMultiply` is modelled with
  exact rationals; on every value these functions are applied to, the IEEE
  result coincides with the exact one (the factors are small powers of two
  times decimal constants, far below the precision where rounding shows).
* The concurrent poll loop is modelled by its single-iteration step function
  `WatcherState.doWatch`, made explicit in state passing: the network reply is
  a parameter, sleeps and listener notifications are reported in the output.
-/

deriving instance DecidableEq for Except

namespace CentralDogma

/-- Error values the watch code distinguishes (`consts.go`, `context`,
`fmt.Errorf` sites in `watch_service.go` and `utils.go`). -/
inductive GoErr where
  /-- `context.Canceled` -/
  | canceled
  /-- `context.DeadlineExceeded` -/
  | deadlineExceeded
  /-- `fmt.Errorf("watch request timeout: %.3f second(s)", …)` -/
  | watchTimeout
  /-- `ErrQueryMustBeSet` -/
  | queryMustBeSet
  /-- `ErrLatestNotSet` -/
  | latestNotSet
  /-- `ErrWatcherClosed` -/
  | watcherClosed
  /-- `fmt.Errorf("the extension of the file should be .json (path: %v)", path)` -/
  | extensionNotJSON (path : String)
  /-- `fmt.Errorf("status: %v", statusCode)` and kin from `Client.do` -/
  | statusErr (code : Int)
  /-- `encoding/json` type mismatch while decoding a field -/
  | unmarshalTypeErr
deriving DecidableEq

/-- `Entry` of `content_service.go`: `{Path, Type, Content, Revision, URL,
ModifiedAt}`.  `Type` is the numeric `EntryType` (Go zero value `0` when
unset), `Content` the byte payload. -/
structure Entry where
  path : String := ""
  type : Int := 0
  content : String := ""
  revision : String := ""
  url : String := ""
  modifiedAt : String := ""
deriving DecidableEq

/-- `WatchResult` of `watch_service.go`:
`{Revision int64, Entry, HttpStatusCode int, Err error}`. -/
structure WatchResult where
  revision : Int := 0
  entry : Entry := {}
  httpStatusCode : Int := 0
  err : Option GoErr := none
deriving DecidableEq

/-- Watcher state constant `initial` (`iota` = 0). -/
def initial : Int := 0

/-- Watcher state constant `started`. -/
def started : Int := 1

/-- Watcher state constant `stopped`. -/
def stopped : Int := 2

/-- `http.StatusNotModified`. -/
def statusNotModified : Int := 304

/-- The mutable per-subscription state of a `Watcher`
(`watch_service.go`).  The capacity-1 channel `initialValueCh` together
with its guard flag `isInitialValueChSet` acts as a one-shot latch, so it
is modelled as an optional slot: `none` means every `AwaitInitialValue`
caller is still blocked, `some v` means all present and future callers
receive `v`. -/
structure WatcherState where
  state : Int := initial
  isInitialValueChSet : Bool := false
  initialValueCh : Option WatchResult := none
  latest : Option WatchResult := none
  numAttemptsSoFar : Int := 0
  projectName : String := ""
  repoName : String := ""
  pathPattern : String := ""
deriving DecidableEq

/-- `newWatcher`: fresh state (channel empty, no latest, zero attempts). -/
def newWatcher (projectName repoName pathPattern : String) : WatcherState :=
  { state := initial
    projectName := projectName
    repoName := repoName
    pathPattern := pathPattern }

/-- Which sleep `Watcher.delay` performs after an iteration. -/
inductive SleepKind where
  /-- iteration ended before reaching `delay()` -/
  | noSleep
  /-- `delayOnSuccess` (attempts counter is zero) -/
  | onSuccess
  /-- `nextDelay(attempts)` (attempts counter is positive) -/
  | backoff (attempts : Int)
deriving DecidableEq

/-- `Watcher.delay`: sleeps `delayOnSuccess` when `numAttemptsSoFar == 0`,
else `nextDelay(numAttemptsSoFar)`. -/
def WatcherState.delaySleep (w : WatcherState) : SleepKind :=
  if w.numAttemptsSoFar = 0 then .onSuccess else .backoff w.numAttemptsSoFar

/-- Observable outcome of one `Watcher.doWatch` iteration. -/
structure DoWatchOutput where
  watcher : WatcherState
  /-- the value handed to `notifyListeners`, when that call was reached -/
  notified : Option WatchResult
  slept : SleepKind
deriving DecidableEq

/-- `lastKnownRevision` computation at the top of `Watcher.doWatch`:
`1` (the init revision) when `latest` is unset or carries revision `0`,
else the stored revision. -/
def WatcherState.lastKnownRevision (w : WatcherState) : Int :=
  match w.latest with
  | none => 1
  | some curLatest => if curLatest.revision = 0 then 1 else curLatest.revision

/-- One iteration of `Watcher.doWatch`, with the reply of `doWatchFunc`
passed in as `watchResult` (`none` models a nil pointer reply). -/
def WatcherState.doWatch (w : WatcherState) (watchResult : Option WatchResult) :
    DoWatchOutput :=
  if w.state = stopped then ⟨w, none, .noSleep⟩
  else
    match watchResult with
    | none =>
        let w' := { w with numAttemptsSoFar := w.numAttemptsSoFar + 1 }
        ⟨w', none, w'.delaySleep⟩
    | some r =>
        match r.err with
        | some e =>
            if e = .canceled then ⟨w, none, .noSleep⟩
            else
              let w' := { w with numAttemptsSoFar := w.numAttemptsSoFar + 1 }
              ⟨w', none, w'.delaySleep⟩
        | none =>
            if r.httpStatusCode ≠ statusNotModified then
              let w1 :=
                if w.isInitialValueChSet = false then
                  { w with isInitialValueChSet := true, initialValueCh := some r }
                else w
              let w2 := { w1 with latest := some r, numAttemptsSoFar := 0 }
              ⟨w2, some r, w2.delaySleep⟩
            else
              let w2 := { w with numAttemptsSoFar := 0 }
              ⟨w2, none, w2.delaySleep⟩

/-- `Watcher.Close`: set state to `stopped` and, when the latch was never
set, publish the `ErrWatcherClosed` sentinel to `initialValueCh`. -/
def WatcherState.close (w : WatcherState) : WatcherState :=
  let w' := { w with state := stopped }
  if w'.isInitialValueChSet = false then
    { w' with
      isInitialValueChSet := true
      initialValueCh := some { err := some .watcherClosed } }
  else w'

/-- `Watcher.AwaitInitialValue`: read the latched value and put it back
(the slot keeps answering every present and future caller); `none` models
"still blocked". -/
def WatcherState.awaitInitialValue (w : WatcherState) : Option WatchResult :=
  w.initialValueCh

/-- `Watcher.Latest`: the stored value, or a result carrying
`ErrLatestNotSet`. -/
def WatcherState.latestResult (w : WatcherState) : WatchResult :=
  match w.latest with
  | some latest => latest
  | none => { err := some .latestNotSet }

/-- `defaultPathPrefix` of `dogma.go` (named slightly differently here). -/
def defaultPrefixPath : String := "api/v1/"

/-- The `if-none-match` header value chosen by `watchService.watchRequest`:
the given revision string when non-empty, else the literal `"-1"`. -/
def ifNoneMatchHeader (lastKnownRevision : String) : String :=
  if lastKnownRevision.length ≠ 0 then lastKnownRevision else "-1"

/-- The `if-none-match` value the poll loop sends for a given watcher
state: `doWatchFunc` stringifies `lastKnownRevision`
(`strconv.FormatInt(lastKnownRevision, 10)`) and `watchRequest` applies
`ifNoneMatchHeader` to it. -/
def WatcherState.watchHeaderValue (w : WatcherState) : String :=
  ifNoneMatchHeader (toString w.lastKnownRevision)

/-- The tail of `watchService.watchRequest`: classify the outcome of
`Client.do`.  On an error, `context.DeadlineExceeded` is replaced by the
wrapped "watch request timeout" error and a result carrying only the
status code and the error is returned; otherwise the decoded result is
returned with its status code filled in. -/
def watchRequestResult (httpStatusCode : Int) (doErr : Option GoErr)
    (decoded : WatchResult) : WatchResult :=
  match doErr with
  | some e =>
      { httpStatusCode := httpStatusCode
        err := some (if e = .deadlineExceeded then .watchTimeout else e) }
  | none => { decoded with httpStatusCode := httpStatusCode }

/-- `QueryType` of `content_service.go` (`Identity = 1`, `JSONPath = 2`). -/
inductive QueryType where
  | identity
  | jsonPath
deriving DecidableEq

/-- `Query` of `content_service.go`. -/
structure Query where
  path : String
  type : QueryType
  expressions : List String
deriving DecidableEq

/-- `strings.HasPrefix(s, pre)`. -/
def goHasPre (s pre : String) : Bool := pre.data.isPrefixOf s.data

/-- `strings.ToLower(s)` (character-wise, which agrees with Go on the
ASCII paths at issue). -/
def goToLower (s : String) : String := ⟨s.data.map Char.toLower⟩

/-- `strings.HasSuffix(s, suf)`. -/
def goHasSuffix (s suf : String) : Bool := suf.data.isSuffixOf s.data

/-- `setJSONPaths` of `utils.go`: for a `JSONPath` query whose lower-cased
path does not end in `"json"` return the extension error, otherwise add a
`jsonpath=<expr>` parameter per expression.  `url.Values` is modelled as a
key-value list. -/
def setJSONPaths (v : List (String × String)) (query : Query) :
    Except GoErr (List (String × String)) :=
  if query.type = .jsonPath then
    if ¬ (goHasSuffix (goToLower query.path) "json") then
      .error (.extensionNotJSON query.path)
    else
      .ok (v ++ query.expressions.map (fun jsonPath => ("jsonpath", jsonPath)))
  else .ok v

/-- `watchService.watchFile`: validate the query (`nil` query, then
`setJSONPaths`), and only if validation passes perform the request, whose
outcome is the parameter `requestOutcome`.  URL assembly is elided: it
cannot fail for the inputs at issue and does not affect the returned
`WatchResult`. -/
def watchFile (query : Option Query) (requestOutcome : WatchResult) :
    WatchResult :=
  match query with
  | none => { err := some .queryMustBeSet }
  | some q =>
      match setJSONPaths [] q with
      | .error e => { err := some e }
      | .ok _ => requestOutcome

/-- `watchService.fileWatcherWithTimeout`: reject a `nil` query, otherwise
build a fresh watcher whose `pathPattern` is the query path.  (The stored
`doWatchFunc` closure is the `watchFile` call above.)  No other
validation happens here. -/
def fileWatcherWithTimeout (projectName repoName : String)
    (query : Option Query) : Except GoErr WatcherState :=
  match query with
  | none => .error .queryMustBeSet
  | some q => .ok (newWatcher projectName repoName q.path)

/-- The path-pattern normalization at the top of
`watchService.watchRepo`. -/
def normalizePathPattern (pathPattern : String) : String :=
  if pathPattern.length = 0 then "/**"
  else if goHasPre pathPattern "**" then "/" ++ pathPattern
  else if ¬ goHasPre pathPattern "/" then "/**/" ++ pathPattern
  else pathPattern

/-- The URL `watchService.watchRepo` issues its request against:
`{defaultPathPrefix}projects/{proj}/repos/{repo}/contents{pattern}` with
the pattern normalized first. -/
def watchRepoURL (projectName repoName pathPattern : String) : String :=
  defaultPrefixPath ++ "projects/" ++ projectName ++ "/repos/" ++ repoName
    ++ "/contents" ++ normalizePathPattern pathPattern

/-- `delayOnSuccess` (`utils.go`): 1 second, in nanoseconds. -/
def delayOnSuccess : Int := 1000000000

/-- `minInterval = delayOnSuccess * 2`. -/
def minInterval : Int := delayOnSuccess * 2

/-- `maxInterval`: 1 minute, in nanoseconds. -/
def maxInterval : Int := 60 * 1000000000

/-- `jitterRate = 0.2`, exact. -/
def jitterRate : ℚ := 1 / 5

/-- `maxInt63 = int64(^uint64(0) >> 1)`. -/
def maxInt63 : Int := 2 ^ 63 - 1

/-- Two's-complement wrap into the `int64` range, used where Go addition
may overflow. -/
def wrap64 (x : Int) : Int := (x + 2 ^ 63) % 2 ^ 64 - 2 ^ 63

/-- Go's `int64(f)` conversion of a finite `float64`: truncation toward
zero (exact rationals stand in for floats, see the file header). -/
def truncQ (q : ℚ) : Int := if 0 ≤ q then ⌊q⌋ else ⌈q⌉

/-- `saturatedMultiply` (`utils.go`): multiply in float space and clamp
above at `maxInt63`. -/
def saturatedMultiply (left : Int) (right : ℚ) : Int :=
  let result : ℚ := (left : ℚ) * right
  if result > (maxInt63 : ℚ) then maxInt63 else truncQ result

/-- `saturatedAdd` (`utils.go`, from Guava): wrap-around sum, returned
directly when the signs of `a` and `b` differ or the sign of the naive sum
matches `a`; otherwise `maxInt63 + ((naiveSum >> 63) ^ 1)`, again with
`int64` wrap-around (the arithmetic shift and xor evaluate to `-2` for a
negative naive sum and `1` otherwise). -/
def saturatedAdd (a b : Int) : Int :=
  let naiveSum := wrap64 (a + b)
  if (¬ ((a < 0) ↔ (b < 0))) ∨ ((a < 0) ↔ (naiveSum < 0)) then naiveSum
  else wrap64 (maxInt63 + (if naiveSum < 0 then -2 else 1))

/-- The pre-jitter delay chosen by `nextDelay`: `minInterval` for attempt
1, else `minInterval · 2^(attempt−1)` (saturating) clamped at
`maxInterval`.  `math.Pow(2.0, float64(n-1))` is the exact power `2^(n-1)`
for every `n` whose result survives the `maxInt63` clamp. -/
def nextDelayBase (numAttemptsSoFar : Int) : Int :=
  if numAttemptsSoFar = 1 then minInterval
  else
    let calculatedDelay :=
      saturatedMultiply minInterval ((2 : ℚ) ^ (numAttemptsSoFar - 1))
    if calculatedDelay > maxInterval then maxInterval else calculatedDelay

/-- `minJitter := int64(float64(nextDelay) * (1 - jitterRate))`. -/
def nextDelayMinJitter (numAttemptsSoFar : Int) : Int :=
  truncQ ((nextDelayBase numAttemptsSoFar : ℚ) * (1 - jitterRate))

/-- `maxJitter := int64(float64(nextDelay) * (1 + jitterRate))`. -/
def nextDelayMaxJitter (numAttemptsSoFar : Int) : Int :=
  truncQ ((nextDelayBase numAttemptsSoFar : ℚ) * (1 + jitterRate))

/-- `bound := maxJitter - minJitter + 1`, the argument to `random`. -/
def nextDelayBound (numAttemptsSoFar : Int) : Int :=
  nextDelayMaxJitter numAttemptsSoFar - nextDelayMinJitter numAttemptsSoFar + 1

/-- Bitwise AND, used by `random` on values that are non-negative there
(`rand.Int63()` draws and the positive `bound`). -/
def intLand (a b : Int) : Int := Int.ofNat (a.toNat &&& b.toNat)

/-- `random` (`utils.go`) with the first `rand.Int63()` draw (a
non-negative 63-bit value) passed in as `draw`.  The power-of-two branch
masks the draw.  The rejection loop initializes `u := result >> 1` and
tests `u + mask - result < 0` against the still-raw first draw, so it is
entered only when `draw - draw/2 > mask`; inside, `result` becomes
`u % bound < bound`, after which the retested condition
`u' + mask - result < 0` fails for every non-negative fresh draw `u'`
(`u' + mask - result ≥ mask - (bound - 1) = 0`), so the loop body runs at
most once and the returned value depends only on the first draw: the raw
draw itself when the loop is never entered — even when that draw lies in
`[bound, 2·bound − 2]`, outside the intended range — and
`(draw >> 1) % bound` otherwise.  (`>>`, `%` and `&` act on non-negative
values here, where Go's and Lean's operators agree.) -/
def random (bound draw : Int) : Int :=
  let mask := bound - 1
  if intLand bound mask = 0 then intLand draw mask
  else if draw / 2 + mask - draw < 0 then (draw / 2) % bound
  else draw

/-- `nextDelay` (`utils.go`) with the first `rand.Int63()` draw passed in
as `draw`: `saturatedAdd(minJitter, random(bound))` clamped below at
zero. -/
def nextDelay (numAttemptsSoFar : Int) (draw : Int) : Int :=
  let result := saturatedAdd (nextDelayMinJitter numAttemptsSoFar)
    (random (nextDelayBound numAttemptsSoFar) draw)
  if result < 0 then 0 else result

/-- Modelled from the spec: the source refers to `EntryType` constants and
`EntryType.String`, declared outside the provided files; the spec fixes
the kinds `JSON`, `TEXT`, `DIRECTORY` (numbered like `QueryType`, from 1)
and their wire strings.  Unlisted numbers render as the empty string. -/
def entryTypeString (t : Int) : String :=
  if t = 1 then "JSON"
  else if t = 2 then "TEXT"
  else if t = 3 then "DIRECTORY"
  else ""

/-- Modelled from the spec: `entryTypeMap`, the string-to-`EntryType`
lookup used by `Entry.UnmarshalJSON`; a Go map lookup misses to the zero
value `0`. -/
def entryTypeMap (s : String) : Int :=
  if s = "JSON" then 1
  else if s = "TEXT" then 2
  else if s = "DIRECTORY" then 3
  else 0

/-- A JSON field value as `encoding/json` hands it to an unmarshaller:
either a JSON string (raw bytes enclosed in quotes) or any other value,
carried as its raw text. -/
inductive Json where
  | str (s : String)
  | raw (text : String)
deriving DecidableEq

/-- The standard base64 alphabet (`encoding/base64.StdEncoding`). -/
def base64Alphabet : List Char :=
  "ABCDEFGHIJKLMNOPQRSTUVWXYZabcdefghijklmnopqrstuvwxyz0123456789+/".data

/-- The alphabet character for a 6-bit group. -/
def base64Char (n : Nat) : Char := base64Alphabet.getD n 'A'

/-- Standard base64 of a byte list, three bytes to four characters with
`=` padding. -/
def base64Chunks : List Nat → List Char
  | b0 :: b1 :: b2 :: rest =>
      base64Char (b0 / 4) :: base64Char (b0 % 4 * 16 + b1 / 16) ::
      base64Char (b1 % 16 * 4 + b2 / 64) :: base64Char (b2 % 64) ::
      base64Chunks rest
  | [b0, b1] =>
      [base64Char (b0 / 4), base64Char (b0 % 4 * 16 + b1 / 16),
       base64Char (b1 % 16 * 4), '=']
  | [b0] => [base64Char (b0 / 4), base64Char (b0 % 4 * 16), '=', '=']
  | [] => []

/-- `encoding/json`'s encoding of a `[]byte` value that has no custom
marshaller: the standard base64 of the bytes, as a JSON string. -/
def base64Encode (bytes : String) : String :=
  ⟨base64Chunks (bytes.data.map Char.toNat)⟩

/-- `Entry.MarshalJSON`: an object with `type` rendered through
`EntryType.String`, then the `Entry` fields in declaration order; `path`
is always present, the other fields carry `omitempty`.  `Content`, a
`[]byte` with no marshaller of its own, is emitted as its base64 string. -/
def marshalEntry (e : Entry) : List (String × Json) :=
  [("type", Json.str (entryTypeString e.type)), ("path", Json.str e.path)]
  ++ (if e.content = "" then [] else [("content", Json.str (base64Encode e.content))])
  ++ (if e.revision = "" then [] else [("revision", Json.str e.revision)])
  ++ (if e.url = "" then [] else [("url", Json.str e.url)])
  ++ (if e.modifiedAt = "" then [] else [("modifiedAt", Json.str e.modifiedAt)])

/-- Field lookup during object decoding; with a duplicated key
`encoding/json` keeps the last value. -/
def jsonLookup (fields : List (String × Json)) (key : String) : Option Json :=
  (fields.filter (fun f => f.1 = key)).getLast?.map (fun f => f.2)

/-- Decode a `string`-typed struct field: absent means the zero value,
a non-string JSON value is a type error. -/
def getStringField (fields : List (String × Json)) (key : String) :
    Except GoErr String :=
  match jsonLookup fields key with
  | none => .ok ""
  | some (.str s) => .ok s
  | some (.raw _) => .error .unmarshalTypeErr

/-- `EntryContent.UnmarshalJSON`: raw bytes that start and end with a
quote (`b[0] == 34 && b[n-1] == 34`) are decoded as a JSON string and the
string's bytes kept; any other raw bytes are kept verbatim. -/
def entryContentFromJson (j : Json) : String :=
  match j with
  | .str s => s
  | .raw text => text

/-- `Entry.UnmarshalJSON`: decode into the auxiliary struct (string
`type`, then the `Entry` fields, `content` through
`EntryContent.UnmarshalJSON`), then map `type` through `entryTypeMap`. -/
def unmarshalEntry (fields : List (String × Json)) : Except GoErr Entry := do
  let typeStr ← getStringField fields "type"
  let path ← getStringField fields "path"
  let content :=
    match jsonLookup fields "content" with
    | none => ""
    | some j => entryContentFromJson j
  let revision ← getStringField fields "revision"
  let url ← getStringField fields "url"
  let modifiedAt ← getStringField fields "modifiedAt"
  .ok { path := path, type := entryTypeMap typeStr, content := content,
        revision := revision, url := url, modifiedAt := modifiedAt }

/-! ## Theorems -/

/-- C1: the spec's monotonicity guarantee fails on the code: `doWatch` has
no revision comparison, so from a started watcher whose stored revision is
5, a re-emitted successful 200 response carrying the same revision 5 is
stored into `latest` again (and listeners are re-notified), although its
revision does not strictly exceed the stored one. -/
theorem C1_same_revision_success_is_stored :
    let prev : WatchResult := { revision := 5, httpStatusCode := 200 }
    let reemitted : WatchResult :=
      { revision := 5, httpStatusCode := 200
        entry := { path := "/a.json", content := "v2" } }
    let w : WatcherState :=
      { newWatcher "foo" "bar" "/a.json" with
          state := started
          isInitialValueChSet := true
          initialValueCh := some prev
          latest := some prev }
    reemitted.revision = prev.revision ∧ reemitted.err = none ∧
    (w.doWatch (some reemitted)).watcher.latest = some reemitted ∧
    (w.doWatch (some reemitted)).notified = some reemitted := by
  decide

/-- C2 counterexample: a deadline-exceeded outcome is wrapped by
`watchRequest` into the (non-nil) watch-timeout error, and `doWatch`
treats it exactly like any other error: the attempts counter is
incremented (0 to 1, so it does change) and the `nextDelay(1)` backoff is
slept, contradicting the claim that a timeout leaves the counter alone
and skips the backoff sleep. -/
theorem C2_timeout_is_backoff_counterexample :
    let w : WatcherState := { newWatcher "foo" "bar" "/a.json" with state := started }
    let r := watchRequestResult 0 (some .deadlineExceeded) {}
    r.err = some .watchTimeout ∧
    (w.doWatch (some r)).watcher.numAttemptsSoFar ≠ w.numAttemptsSoFar ∧
    (w.doWatch (some r)).slept = .backoff 1 := by
  decide

/-- C2 amended: in every non-stopped poll iteration whose request ends
deadline-exceeded, `watchRequest` wraps the outcome in the watch-timeout
error and `doWatch` handles it through the error branch: the attempts
counter is incremented and the backoff delay `nextDelay(attempts)` is
slept, exactly as for transport/protocol errors; `latest`, the initial
latch and the listeners are untouched. -/
theorem C2_timeout_increments_attempts_and_backs_off
    (w : WatcherState) (code : Int) (decoded : WatchResult)
    (hs : w.state ≠ stopped) (ha : 0 ≤ w.numAttemptsSoFar) :
    let r := watchRequestResult code (some .deadlineExceeded) decoded
    let o := w.doWatch (some r)
    r.err = some .watchTimeout ∧
    o.watcher.numAttemptsSoFar = w.numAttemptsSoFar + 1 ∧
    o.slept = .backoff (w.numAttemptsSoFar + 1) ∧
    o.watcher.latest = w.latest ∧
    o.watcher.isInitialValueChSet = w.isInitialValueChSet ∧
    o.watcher.initialValueCh = w.initialValueCh ∧
    o.notified = none := by
  have hne : w.numAttemptsSoFar + 1 ≠ 0 := by omega
  simp only [watchRequestResult, WatcherState.doWatch, WatcherState.delaySleep,
    if_neg hs, if_neg hne]
  refine ⟨rfl, ?_⟩
  simp [WatcherState.doWatch, WatcherState.delaySleep, if_neg hs, hne]

/-- C2 witness. -/
theorem C2_timeout_increments_attempts_and_backs_off_witness :
    let w : WatcherState := { newWatcher "foo" "bar" "/a.json" with state := started }
    let r := watchRequestResult 0 (some .deadlineExceeded) {}
    let o := w.doWatch (some r)
    r.err = some .watchTimeout ∧
    o.watcher.numAttemptsSoFar = w.numAttemptsSoFar + 1 ∧
    o.slept = .backoff (w.numAttemptsSoFar + 1) ∧
    o.watcher.latest = w.latest ∧
    o.watcher.isInitialValueChSet = w.isInitialValueChSet ∧
    o.watcher.initialValueCh = w.initialValueCh ∧
    o.notified = none :=
  C2_timeout_increments_attempts_and_backs_off
    { newWatcher "foo" "bar" "/a.json" with state := started } 0 {}
    (by decide) (by decide)

/-- C3: in a started watcher, a 304 (not-modified, no-error) response
changes no observable state: `latest`, the initial-value latch and its
flag are unchanged, no listener is notified, and the attempts counter is
reset to zero before the `delayOnSuccess` sleep. -/
theorem C3_not_modified_is_a_no_op
    (w : WatcherState) (r : WatchResult)
    (hs : w.state = started) (he : r.err = none)
    (hc : r.httpStatusCode = statusNotModified) :
    let o := w.doWatch (some r)
    o.watcher.latest = w.latest ∧
    o.notified = none ∧
    o.watcher.isInitialValueChSet = w.isInitialValueChSet ∧
    o.watcher.initialValueCh = w.initialValueCh ∧
    o.watcher.numAttemptsSoFar = 0 ∧
    o.slept = .onSuccess := by
  have hns : w.state ≠ stopped := by rw [hs]; decide
  simp [WatcherState.doWatch, WatcherState.delaySleep, if_neg hns, he, hc]

/-- C3 witness. -/
theorem C3_not_modified_is_a_no_op_witness :
    let w : WatcherState :=
      { newWatcher "foo" "bar" "/a.json" with
          state := started
          isInitialValueChSet := true
          initialValueCh := some { revision := 3, httpStatusCode := 200 }
          latest := some { revision := 3, httpStatusCode := 200 }
          numAttemptsSoFar := 0 }
    let r : WatchResult := { httpStatusCode := 304 }
    let o := w.doWatch (some r)
    o.watcher.latest = w.latest ∧
    o.notified = none ∧
    o.watcher.isInitialValueChSet = w.isInitialValueChSet ∧
    o.watcher.initialValueCh = w.initialValueCh ∧
    o.watcher.numAttemptsSoFar = 0 ∧
    o.slept = .onSuccess :=
  C3_not_modified_is_a_no_op _ _ rfl rfl rfl

/-- Helper: `Nat.toDigitsCore` never shrinks its accumulator. -/
theorem toDigitsCore_length_le (b : Nat) : ∀ (fuel n : Nat) (ds : List Char),
    ds.length ≤ (Nat.toDigitsCore b fuel n ds).length
  | 0, _, _ => le_refl _
  | fuel + 1, n, ds => by
      simp only [Nat.toDigitsCore]
      split
      · simp
      · exact le_trans (by simp) (toDigitsCore_length_le b fuel _ _)

/-- Helper: decimal digit strings are never empty. -/
theorem toDigits_length_pos (n : Nat) : 0 < (Nat.toDigits 10 n).length := by
  show 0 < (Nat.toDigitsCore 10 (n + 1) n []).length
  simp only [Nat.toDigitsCore]
  split
  · simp
  · exact lt_of_lt_of_le (by simp) (toDigitsCore_length_le 10 n _ _)

/-- Helper: `strconv`-style stringification of an integer is never the
empty string. -/
theorem toString_int_length_ne_zero (i : Int) : (toString i).length ≠ 0 := by
  cases i with
  | ofNat m =>
      show (Nat.repr m).length ≠ 0
      have h := toDigits_length_pos m
      have h2 : (Nat.repr m).length = (Nat.toDigits 10 m).length := rfl
      omega
  | negSucc m =>
      show (("-" : String) ++ Nat.repr (m + 1)).length ≠ 0
      rw [String.length_append]
      have h : (("-" : String)).length = 1 := rfl
      omega

/-- C5 counterexample: a freshly created Watcher's first long-poll request
carries `if-none-match: 1` (the init revision `1` stringified), not `-1`:
the `-1` default in `watchRequest` is unreachable from the poll loop,
whose `strconv.FormatInt` argument is never the empty string. -/
theorem C5_fresh_watcher_sends_one_counterexample :
    (newWatcher "foo" "bar" "/a.json").watchHeaderValue = "1" ∧
    (newWatcher "foo" "bar" "/a.json").watchHeaderValue ≠ "-1" := by
  decide

/-- C5 amended: the `-1` default applies only to an empty
`lastKnownRevision` string (never produced by the poll loop); a fresh
Watcher's first request carries `if-none-match: 1`, and once a result
with a non-zero revision is stored the header equals that revision
stringified. -/
theorem C5_header_values
    (projectName repoName pathPattern : String)
    (w : WatcherState) (r : WatchResult)
    (hl : w.latest = some r) (hr : r.revision ≠ 0) :
    ifNoneMatchHeader "" = "-1" ∧
    (newWatcher projectName repoName pathPattern).watchHeaderValue = "1" ∧
    w.watchHeaderValue = toString r.revision := by
  refine ⟨rfl, rfl, ?_⟩
  simp only [WatcherState.watchHeaderValue, WatcherState.lastKnownRevision, hl,
    if_neg hr, ifNoneMatchHeader]
  rw [if_pos (toString_int_length_ne_zero r.revision)]

/-- C5 witness. -/
theorem C5_header_values_witness :
    ifNoneMatchHeader "" = "-1" ∧
    (newWatcher "foo" "bar" "/a.json").watchHeaderValue = "1" ∧
    WatcherState.watchHeaderValue
      { newWatcher "foo" "bar" "/a.json" with
          state := started
          latest := some { revision := 7, httpStatusCode := 200 } }
      = toString (7 : Int) :=
  C5_header_values "foo" "bar" "/a.json" _
    { revision := 7, httpStatusCode := 200 } rfl (by decide)

/-- C8: closing a Watcher that never observed a success (latch unset, no
stored value) publishes the `ErrWatcherClosed` sentinel to the latch, so
every `AwaitInitialValue` caller, blocked or future, receives it, while
`Latest` still reports `ErrLatestNotSet`. -/
theorem C8_close_before_first_value
    (w : WatcherState)
    (h1 : w.isInitialValueChSet = false) (h2 : w.latest = none) :
    w.close.awaitInitialValue = some { err := some .watcherClosed } ∧
    (w.close.latestResult).err = some .latestNotSet ∧
    w.close.state = stopped := by
  simp [WatcherState.close, WatcherState.awaitInitialValue,
    WatcherState.latestResult, h1, h2]

/-- C8 witness. -/
theorem C8_close_before_first_value_witness :
    (newWatcher "foo" "bar" "/a.json").close.awaitInitialValue
        = some { err := some .watcherClosed } ∧
    ((newWatcher "foo" "bar" "/a.json").close.latestResult).err
        = some .latestNotSet ∧
    (newWatcher "foo" "bar" "/a.json").close.state = stopped :=
  C8_close_before_first_value (newWatcher "foo" "bar" "/a.json") rfl rfl

/-- C10: once a first successful result has been latched
(`isInitialValueChSet` is already true), `Close` does not replace it: the
compare-and-swap in `Close` fails, the latch keeps the first value, and
`AwaitInitialValue` after `Close` still returns it, not the
`ErrWatcherClosed` sentinel. -/
theorem C10_close_preserves_latched_initial_value
    (w : WatcherState) (v : WatchResult)
    (h1 : w.isInitialValueChSet = true) (h2 : w.initialValueCh = some v)
    (hv : v.err = none) :
    w.close.initialValueCh = some v ∧
    w.close.awaitInitialValue = some v ∧
    w.close.awaitInitialValue ≠ some { err := some GoErr.watcherClosed } := by
  have hcl : w.close = { w with state := stopped } := by
    simp [WatcherState.close, h1]
  refine ⟨by rw [hcl]; exact h2, by rw [hcl]; exact h2, ?_⟩
  rw [hcl]
  show w.initialValueCh ≠ _
  rw [h2]
  intro hcontra
  rw [Option.some_inj.mp hcontra] at hv
  exact Option.noConfusion hv

/-- C10 witness. -/
theorem C10_close_preserves_latched_initial_value_witness :
    (WatcherState.close
      { newWatcher "foo" "bar" "/a.json" with
          state := started
          isInitialValueChSet := true
          initialValueCh := some { revision := 3, httpStatusCode := 200 }
          latest := some { revision := 3, httpStatusCode := 200 } }).awaitInitialValue
      = some { revision := 3, httpStatusCode := 200 } :=
  (C10_close_preserves_latched_initial_value _
    { revision := 3, httpStatusCode := 200 } rfl rfl rfl).2.1

/-- C4 counterexample: the factory `fileWatcherWithTimeout` accepts a
`JsonPath` query whose path does not end in `json` (it only rejects a nil
query); the extension error is produced later, inside the poll loop, by
`watchFile`/`setJSONPaths` on each request. -/
theorem C4_factory_accepts_bad_jsonpath_counterexample :
    let q : Query := { path := "test.yaml", type := .jsonPath, expressions := [] }
    fileWatcherWithTimeout "foo" "bar" (some q)
        = .ok (newWatcher "foo" "bar" "test.yaml") ∧
    (watchFile (some q) {}).err = some (.extensionNotJSON "test.yaml") := by
  decide

/-- C4 amended: only a nil `Query` is rejected synchronously by the
factory; for every `JsonPath` query whose lower-cased path does not end
in `json`, the factory succeeds and the extension `ArgumentError` is
instead produced by each `watchFile` call inside the poll loop. -/
theorem C4_jsonpath_validation_happens_in_poll_loop
    (projectName repoName : String) (q : Query) (outcome : WatchResult)
    (ht : q.type = .jsonPath)
    (hp : goHasSuffix (goToLower q.path) "json" = false) :
    fileWatcherWithTimeout projectName repoName (some q)
        = .ok (newWatcher projectName repoName q.path) ∧
    (watchFile (some q) outcome).err = some (.extensionNotJSON q.path) := by
  refine ⟨rfl, ?_⟩
  simp [watchFile, setJSONPaths, ht, hp]

/-- C4 witness. -/
theorem C4_jsonpath_validation_happens_in_poll_loop_witness :
    fileWatcherWithTimeout "foo" "bar"
        (some { path := "test.yaml", type := .jsonPath, expressions := [] })
        = .ok (newWatcher "foo" "bar" "test.yaml") ∧
    (watchFile (some { path := "test.yaml", type := .jsonPath, expressions := [] })
        {}).err = some (.extensionNotJSON "test.yaml") :=
  C4_jsonpath_validation_happens_in_poll_loop "foo" "bar"
    { path := "test.yaml", type := .jsonPath, expressions := [] } {}
    rfl (by decide)

/-- Helper: a string with the prefix `**` is non-empty. -/
theorem goHasPre_star_ne_empty (p : String) (h : goHasPre p "**" = true) :
    ¬ p.length = 0 := by
  obtain ⟨l⟩ := p
  cases l with
  | nil => exact absurd h (by decide)
  | cons c cs => simp [String.length]

/-- Helper: a string with the prefix `/` is non-empty and does not have
the prefix `**`. -/
theorem goHasPre_slash_shape (p : String) (h : goHasPre p "/" = true) :
    ¬ p.length = 0 ∧ goHasPre p "**" = false := by
  obtain ⟨l⟩ := p
  cases l with
  | nil => exact absurd h (by decide)
  | cons c cs =>
      simp only [goHasPre, List.isPrefixOf, Bool.and_true] at h
      have hc : '/' = c := by simpa using h
      subst hc
      constructor
      · simp [String.length]
      · have hne : ('*' == '/') = false := by decide
        simp [goHasPre, List.isPrefixOf, hne]

/-- C7: `watchRepo` normalizes the path pattern before building the URL:
empty becomes `/**`, a pattern starting with `**` gets `/` prepended, a
pattern starting with neither `/` nor `**` gets `/**/` prepended, and a
pattern already starting with `/` is unchanged; hence pattern `""` hits
`…/contents/**` and `"a.json"` hits `…/contents/**/a.json`. -/
theorem C7_path_pattern_normalization (p : String) :
    (p = "" → normalizePathPattern p = "/**") ∧
    (goHasPre p "**" = true → normalizePathPattern p = "/" ++ p) ∧
    (¬ p.length = 0 → goHasPre p "**" = false → goHasPre p "/" = false →
        normalizePathPattern p = "/**/" ++ p) ∧
    (goHasPre p "/" = true → normalizePathPattern p = p) ∧
    watchRepoURL "foo" "bar" "" = "api/v1/projects/foo/repos/bar/contents/**" ∧
    watchRepoURL "foo" "bar" "a.json"
        = "api/v1/projects/foo/repos/bar/contents/**/a.json" := by
  refine ⟨?_, ?_, ?_, ?_, by decide, by decide⟩
  · intro h; subst h; decide
  · intro h
    have hne := goHasPre_star_ne_empty p h
    simp [normalizePathPattern, hne, h]
  · intro hne h2 h3
    simp [normalizePathPattern, hne, h2, h3]
  · intro h
    obtain ⟨hne, h2⟩ := goHasPre_slash_shape p h
    simp [normalizePathPattern, hne, h2, h]

/-- C7 witness. -/
theorem C7_path_pattern_normalization_witness :
    normalizePathPattern "a.json" = "/**/a.json" ∧
    normalizePathPattern "/x" = "/x" ∧
    normalizePathPattern "**/x" = "/" ++ "**/x" :=
  ⟨(C7_path_pattern_normalization "a.json").2.2.1 (by decide) (by decide) (by decide),
   (C7_path_pattern_normalization "/x").2.2.2.1 (by decide),
   (C7_path_pattern_normalization "**/x").2.1 (by decide)⟩

/-- C9: the Entry marshal/unmarshal round trip does not preserve the
content bytes: `EntryContent` is a `[]byte` with no marshaller of its own,
so `Entry.MarshalJSON` emits its standard base64 string, while
`EntryContent.UnmarshalJSON` keeps that string's bytes verbatim.  Path,
type and revision survive the round trip; the content comes back
base64-encoded (`"hello"` becomes `"aGVsbG8="`). -/
theorem C9_roundtrip_mangles_content :
    let e : Entry :=
      { path := "/a.json", type := 2, content := "hello", revision := "3" }
    unmarshalEntry (marshalEntry e) = .ok { e with content := "aGVsbG8=" } ∧
    base64Encode "hello" = "aGVsbG8=" ∧
    ("aGVsbG8=" : String) ≠ "hello" := by
  decide

/-- Helper: `truncQ` is the identity on integers. -/
theorem truncQ_intCast (z : Int) : truncQ (z : ℚ) = z := by
  unfold truncQ
  split
  · exact Int.floor_intCast z
  · exact Int.ceil_intCast z

/-- Helper: `wrap64` is the identity on the `int64` range. -/
theorem wrap64_eq_self (x : Int) (h0 : 0 ≤ x) (h1 : x ≤ maxInt63) :
    wrap64 x = x := by
  have hM : maxInt63 = 9223372036854775807 := by norm_num [maxInt63]
  unfold wrap64
  rw [Int.emod_eq_of_lt (by omega) (by omega)]
  omega

/-- Helper: on non-negative summands that do not overflow, `saturatedAdd`
is plain addition. -/
theorem saturatedAdd_eq_add (a b : Int) (ha : 0 ≤ a) (hb : 0 ≤ b)
    (hs : a + b ≤ maxInt63) : saturatedAdd a b = a + b := by
  unfold saturatedAdd
  rw [wrap64_eq_self (a + b) (by omega) hs]
  rw [if_pos (Or.inr (iff_of_false (by omega) (by omega)))]

/-- Helper: for every attempt count `n ≥ 1` the pre-jitter base
`nextDelayBase n` is `5 t` for a positive `t ≤ 12·10⁹` (equivalently, it
is positive, a multiple of 5, and at most `maxInterval`). -/
theorem nextDelayBase_form (n : Int) (hn : 1 ≤ n) :
    ∃ t : Int, 0 < t ∧ t ≤ 12000000000 ∧ nextDelayBase n = 5 * t := by
  by_cases hn1 : n = 1
  · refine ⟨400000000, by norm_num, by norm_num, ?_⟩
    subst hn1
    norm_num [nextDelayBase, minInterval, delayOnSuccess]
  · have hm : ((n - 1).toNat : ℤ) = n - 1 := Int.toNat_of_nonneg (by omega)
    have hpow : (2 : ℚ) ^ (n - 1) = (((2 ^ ((n - 1).toNat) : ℤ) : ℚ)) := by
      rw [← hm, zpow_natCast]
      norm_cast
    have hP : (minInterval : ℚ) * ((2 : ℚ) ^ (n - 1))
        = (((2000000000 * 2 ^ ((n - 1).toNat) : ℤ) : ℚ)) := by
      rw [hpow]
      push_cast [minInterval, delayOnSuccess]
      ring
    have hMgt : (maxInt63 : ℤ) > maxInterval := by
      norm_num [maxInt63, maxInterval]
    set P : ℤ := 2000000000 * 2 ^ ((n - 1).toNat) with hPdef
    have hPpos : 0 < P := by positivity
    have hsm : saturatedMultiply minInterval ((2 : ℚ) ^ (n - 1))
        = if P > maxInt63 then maxInt63 else P := by
      simp only [saturatedMultiply]
      rw [hP, truncQ_intCast]
      by_cases hc : P > maxInt63
      · rw [if_pos (show ((P : ℚ) > ((maxInt63 : ℤ) : ℚ)) by exact_mod_cast hc),
          if_pos hc]
      · rw [if_neg (show ¬ ((P : ℚ) > ((maxInt63 : ℤ) : ℚ)) by exact_mod_cast hc),
          if_neg hc]
    have hbase : nextDelayBase n
        = if (if P > maxInt63 then maxInt63 else P) > maxInterval
          then maxInterval
          else (if P > maxInt63 then maxInt63 else P) := by
      unfold nextDelayBase
      rw [if_neg hn1, hsm]
    by_cases h1 : P > maxInt63
    · refine ⟨12000000000, by norm_num, le_refl _, ?_⟩
      rw [hbase, if_pos h1, if_pos hMgt]
      norm_num [maxInterval]
    · by_cases h2 : P > maxInterval
      · refine ⟨12000000000, by norm_num, le_refl _, ?_⟩
        rw [hbase, if_neg h1, if_pos h2]
        norm_num [maxInterval]
      · refine ⟨400000000 * 2 ^ ((n - 1).toNat), by positivity, ?_, ?_⟩
        · have hPle : P ≤ maxInterval := by omega
          have : maxInterval = 60000000000 := by norm_num [maxInterval]
          omega
        · rw [hbase, if_neg h1, if_neg h2]
          ring

/-- Helper: with the base written as `5 t`, the jitter window is exactly
`[4 t, 6 t]` and the random bound is `2 t + 1`. -/
theorem nextDelay_jitters (n t : Int) (hb : nextDelayBase n = 5 * t) :
    nextDelayMinJitter n = 4 * t ∧ nextDelayMaxJitter n = 6 * t ∧
    nextDelayBound n = 2 * t + 1 := by
  have hmin : nextDelayMinJitter n = 4 * t := by
    unfold nextDelayMinJitter
    rw [hb]
    have hq : ((5 * t : ℤ) : ℚ) * (1 - jitterRate) = ((4 * t : ℤ) : ℚ) := by
      push_cast [jitterRate]
      ring
    rw [hq, truncQ_intCast]
  have hmax : nextDelayMaxJitter n = 6 * t := by
    unfold nextDelayMaxJitter
    rw [hb]
    have hq : ((5 * t : ℤ) : ℚ) * (1 + jitterRate) = ((6 * t : ℤ) : ℚ) := by
      push_cast [jitterRate]
      ring
    rw [hq, truncQ_intCast]
  refine ⟨hmin, hmax, ?_⟩
  unfold nextDelayBound
  rw [hmin, hmax]
  ring

/-- Helper: the random bound handed to `random` is positive for every
attempt count `n ≥ 1`. -/
theorem nextDelayBound_pos (n : Int) (hn : 1 ≤ n) : 0 < nextDelayBound n := by
  obtain ⟨t, ht0, _, hb⟩ := nextDelayBase_form n hn
  obtain ⟨_, _, hbound⟩ := nextDelay_jitters n t hb
  omega

/-- Helper: the pre-jitter base saturates at `maxInterval` from attempt 6
on (`2 s · 2⁵ = 64 s > 60 s`). -/
theorem nextDelayBase_six : nextDelayBase 6 = 60000000000 := by
  have h5 : ((6 : ℤ) - 1) = ((5 : ℕ) : ℤ) := by norm_num
  simp only [nextDelayBase]
  rw [if_neg (show ¬ (6 : ℤ) = 1 by norm_num)]
  have hsm : saturatedMultiply minInterval ((2 : ℚ) ^ ((6 : ℤ) - 1))
      = 64000000000 := by
    simp only [saturatedMultiply]
    rw [h5, zpow_natCast]
    have hq : (minInterval : ℚ) * (2 : ℚ) ^ (5 : ℕ) = ((64000000000 : ℤ) : ℚ) := by
      norm_num [minInterval, delayOnSuccess]
    rw [hq, truncQ_intCast]
    rw [if_neg (show ¬ (((64000000000 : ℤ) : ℚ) > ((maxInt63 : ℤ) : ℚ)) by
      exact_mod_cast (show ¬ ((64000000000 : ℤ) > maxInt63) by
        norm_num [maxInt63]))]
  rw [hsm]
  rw [if_pos (show (64000000000 : ℤ) > maxInterval by norm_num [maxInterval])]
  norm_num [maxInterval]

/-- C6: the claimed bounds fail on the code: `random`'s rejection loop
tests `u + mask - result < 0` against the unreduced first draw, so a draw
in `[bound, 2·bound − 2]` skips the loop and is returned out of range.
At attempt 6 the base saturates at `maxInterval` (60 s), the jitter
window is `[48 s, 72 s]` with `bound = 24·10⁹ + 1`, and the first draw
`48·10⁹` — inside `[bound, 2·bound − 2]` — is returned raw, so
`nextDelay` yields 96 s: above `base · 1.2` and above the claimed cap
`maxInterval · (1 + jitterRate) = 72 s`. -/
theorem C6_random_overshoots_jitter_cap :
    nextDelayBase 6 = 60000000000 ∧
    nextDelayBound 6 = 24000000001 ∧
    (nextDelayBound 6 ≤ 48000000000 ∧
      (48000000000 : Int) ≤ 2 * nextDelayBound 6 - 2) ∧
    random (nextDelayBound 6) 48000000000 = 48000000000 ∧
    nextDelay 6 48000000000 = 96000000000 ∧
    ¬ ((nextDelay 6 48000000000 : ℚ) ≤ (maxInterval : ℚ) * (1 + jitterRate)) ∧
    ¬ ((nextDelay 6 48000000000 : ℚ)
        ≤ (nextDelayBase 6 : ℚ) * (1 + jitterRate)) := by
  have hbase : nextDelayBase 6 = 60000000000 := nextDelayBase_six
  have hb5 : nextDelayBase 6 = 5 * 12000000000 := by rw [hbase]; norm_num
  obtain ⟨hmin, hmax, hbound⟩ := nextDelay_jitters 6 12000000000 hb5
  have hbound' : nextDelayBound 6 = 24000000001 := by rw [hbound]; norm_num
  have hrand : random 24000000001 48000000000 = 48000000000 := by decide
  have hM : maxInt63 = 9223372036854775807 := by norm_num [maxInt63]
  have hnd : nextDelay 6 48000000000 = 96000000000 := by
    simp only [nextDelay]
    rw [hbound', hrand, hmin,
      saturatedAdd_eq_add _ _ (by norm_num) (by norm_num) (by omega)]
    norm_num
  refine ⟨hbase, hbound', ⟨by omega, by omega⟩, by rw [hbound']; exact hrand,
    hnd, ?_, ?_⟩
  · rw [hnd]
    norm_num [maxInterval, jitterRate]
  · rw [hnd, hbase]
    norm_num [jitterRate]

end CentralDogma
